import Mathlib

/-!
# Verification of the image/text composition editor's state and history engine

This file gives a shallow embedding of the editing-state and history engine of
the editor component (`ImageEditor`), together with proofs and refutations of
the specification's claims about it.

Modelling conventions, matching the source faithfully:

* The component's React state hooks become fields of `EditorState`.  An event
  handler is a pure function `EditorState → EditorState`.  Inside one handler,
  reads of state variables see the render-time values (JavaScript `const`s
  captured by the closure), while `setX(...)` calls are queued and applied in
  order at the end of the handler; `setX(value)` replaces, `setX(prev => f
  prev)` maps the queued value.  Each operation below is the composition of its
  queued updates in source order.  In particular `addToHistory` reads
  `backgroundImage`, `textLayers` and `canvasSize` from its `useCallback`
  closure, i.e. from the state as it was when the handler started — it
  snapshots the *pre-operation* state.
* JavaScript numbers are modelled as exact rationals (`ℚ`); JSON serialization
  of finite numbers is exact, and none of the verified claims hinge on
  floating-point rounding.
* Live `fabric.IText` canvas objects are mutable heap objects.  They are
  modelled by an explicit heap `Heap : List (ℕ × FabricProps)` of references to
  mutable visual properties; `TextLayer.fabricObject` is an optional reference
  into this heap, and the canvas's stacking order is `canvasObjects`, a list of
  (reference, layerId-tag) pairs in bottom-to-top order, as returned by
  `canvas.getObjects()`.
* External collaborators (Supabase blob store, `localStorage`) are modelled by
  explicit parameters: the previously stored record, the outcome of an upload,
  and a fetch function.  A `saveToStorage` run that throws performs no write,
  which is modelled by returning `none`.
-/

namespace ImageEditor

/-- Mutable visual properties of a live `fabric.IText` object, as set by
`addTextToCanvas` and `updateTextLayer` (`text.set {...}`). -/
structure FabricProps where
  text : String
  fontFamily : String
  fontSize : ℚ
  fontWeight : String
  fill : String
  opacity : ℚ
  textAlign : String
  left : ℚ
  top : ℚ
  angle : ℚ
  visible : Bool
deriving DecidableEq

/-- A live canvas object as seen in `canvas.getObjects()`: a heap reference
plus the immutable `layerId` tag written at creation
(`(text as FabricObject).layerId = layer.id`). -/
structure CanvasObj where
  ref : ℕ
  layerId : String
deriving DecidableEq

/-- The mutable store of live fabric objects: reference ↦ properties. -/
abbrev Heap := List (ℕ × FabricProps)

/-- Read a heap cell. -/
def Heap.get? (h : Heap) (r : ℕ) : Option FabricProps :=
  (h.find? (fun e => e.1 == r)).map Prod.snd

/-- Overwrite a heap cell in place (`fabricObject.set {...}`). -/
def Heap.set (h : Heap) (r : ℕ) (p : FabricProps) : Heap :=
  h.map (fun e => if e.1 = r then (r, p) else e)

/-- A reference unused by the heap, for newly created objects. -/
def Heap.fresh (h : Heap) : ℕ :=
  h.foldr (fun e m => max (e.1 + 1) m) 0

/-- The `TextLayer` interface.  `fabricObject` is the optional reference to the
layer's live canvas object. -/
structure TextLayer where
  id : String
  text : String
  fontFamily : String
  fontSize : ℚ
  fontWeight : String
  color : String
  opacity : ℚ
  alignment : String
  x : ℚ
  y : ℚ
  rotation : ℚ
  visible : Bool
  fabricObject : Option ℕ := none
deriving DecidableEq

/-- The `DesignState` interface: the unit of undo/redo and persistence.
`backgroundImagePath` is absent (`none`) in history snapshots, which set only
the four other fields. -/
structure DesignState where
  backgroundImage : Option String
  backgroundImagePath : Option String := none
  textLayers : List TextLayer
  canvasWidth : ℚ
  canvasHeight : ℚ
deriving DecidableEq

/-- The component's state hooks relevant to the state/history engine.
`canvas` records whether the fabric canvas is non-null; `isUploading` is
`uploadState.isUploading`. -/
structure EditorState where
  canvas : Bool
  canvasObjects : List CanvasObj
  fabricHeap : Heap
  backgroundImage : Option String
  textLayers : List TextLayer
  selectedTextLayer : Option String
  history : List DesignState
  historyIndex : Int
  canvasWidth : ℚ
  canvasHeight : ℚ
  isUploading : Bool
deriving DecidableEq

/-- The editor right after successful canvas initialization: empty design,
default 800×600 canvas, empty history with index −1. -/
def initialEditorState : EditorState :=
  { canvas := true
    canvasObjects := []
    fabricHeap := []
    backgroundImage := none
    textLayers := []
    selectedTextLayer := none
    history := []
    historyIndex := -1
    canvasWidth := 800
    canvasHeight := 600
    isUploading := false }

/-- The `currentState` object literal built inside `addToHistory` from the
values captured by its `useCallback` closure. -/
def snapshotOf (s : EditorState) : DesignState :=
  { backgroundImage := s.backgroundImage
    textLayers := s.textLayers
    canvasWidth := s.canvasWidth
    canvasHeight := s.canvasHeight }

/-- The core of `addToHistory`: truncate to `slice(0, historyIndex + 1)`,
push the snapshot; if the result exceeds 20 entries, `shift()` the oldest out
and leave the index alone, otherwise advance the index. -/
def recordHistory (history : List DesignState) (historyIndex : Int)
    (snap : DesignState) : List DesignState × Int :=
  let newHistory := history.take (historyIndex + 1).toNat ++ [snap]
  if 20 < newHistory.length then (newHistory.drop 1, historyIndex)
  else (newHistory, historyIndex + 1)

/-- `addToHistory()` as it acts on the component state.  The snapshot argument
is the `currentState` read from the *closure* (pre-operation) values; callers
pass `snapshotOf` of the state the handler started from. -/
def addToHistory (s : EditorState) (snap : DesignState) : EditorState :=
  let hi := recordHistory s.history s.historyIndex snap
  { s with history := hi.1, historyIndex := hi.2 }

/-- Properties pushed to a fresh `fabric.IText` from a layer
(`addTextToCanvas`), and by `updateTextLayer`'s full attribute push. -/
def fabricPropsOf (l : TextLayer) : FabricProps :=
  { text := l.text
    fontFamily := l.fontFamily
    fontSize := l.fontSize
    fontWeight := l.fontWeight
    fill := l.color
    opacity := l.opacity
    textAlign := l.alignment
    left := l.x
    top := l.y
    angle := l.rotation
    visible := l.visible }

/-- The canvas-side effect of `addTextToCanvas`: create a live text object
carrying the layer's attributes and `layerId` tag and `canvas.add` it (on top).
Returns the new object's reference.  (The `setTextLayers` functional update it
also queues is applied by each caller at its place in that handler's queue.) -/
def addTextToCanvasObjects (s : EditorState) (l : TextLayer) :
    EditorState × ℕ :=
  let r := Heap.fresh s.fabricHeap
  ({ s with
      fabricHeap := s.fabricHeap ++ [(r, fabricPropsOf l)]
      canvasObjects := s.canvasObjects ++ [⟨r, l.id⟩] }, r)

/-- The fresh layer literal built by `addTextLayer`: default text "New Text"
centered on the canvas.  Its `id` is `Date.now().toString()`; the clock reading
is an input. -/
def newTextLayer (now : ℕ) (w h : ℚ) : TextLayer :=
  { id := toString now
    text := "New Text"
    fontFamily := "Arial"
    fontSize := 32
    fontWeight := "normal"
    color := "#000000"
    opacity := 1
    alignment := "left"
    x := w / 2
    y := h / 2
    rotation := 0
    visible := true
    fabricObject := none }

/-- `addTextLayer()`.  Guard: no-op without a canvas.  Queue in source order:
`addTextToCanvas` adds the live object and queues a functional update keyed on
the new id (a no-op, since no existing layer has it); then
`setTextLayers([...textLayers, newLayer])` replaces the list outright, so the
appended layer entry keeps `fabricObject = none`; then the selection is set and
`addToHistory` records the closure (pre-operation) snapshot. -/
def addTextLayer (s : EditorState) (now : ℕ) : EditorState :=
  if ¬ s.canvas then s else
  let l := newTextLayer now s.canvasWidth s.canvasHeight
  let s1 := (addTextToCanvasObjects s l).1
  let s2 := { s1 with
      textLayers := s.textLayers ++ [l]
      selectedTextLayer := some l.id }
  addToHistory s2 (snapshotOf s)

/-- A `Partial<TextLayer>` argument of `updateTextLayer` (the attribute fields
edits may carry). -/
structure LayerPatch where
  text : Option String := none
  fontFamily : Option String := none
  fontSize : Option ℚ := none
  fontWeight : Option String := none
  color : Option String := none
  opacity : Option ℚ := none
  alignment : Option String := none
  x : Option ℚ := none
  y : Option ℚ := none
  rotation : Option ℚ := none
  visible : Option Bool := none
deriving DecidableEq

/-- `{ ...layer, ...updates }`. -/
def applyPatch (l : TextLayer) (p : LayerPatch) : TextLayer :=
  { l with
    text := p.text.getD l.text
    fontFamily := p.fontFamily.getD l.fontFamily
    fontSize := p.fontSize.getD l.fontSize
    fontWeight := p.fontWeight.getD l.fontWeight
    color := p.color.getD l.color
    opacity := p.opacity.getD l.opacity
    alignment := p.alignment.getD l.alignment
    x := p.x.getD l.x
    y := p.y.getD l.y
    rotation := p.rotation.getD l.rotation
    visible := p.visible.getD l.visible }

/-- `updateTextLayer(layerId, updates)`: merge the patch into the matching
layer entry and, when that entry holds a live object reference, push the full
updated attribute set into the shared object (`fabricObject.set {...}`). -/
def updateTextLayer (s : EditorState) (layerId : String) (p : LayerPatch) :
    EditorState :=
  { s with
    textLayers := s.textLayers.map
      (fun l => if l.id = layerId then applyPatch l p else l)
    fabricHeap :=
      match s.textLayers.find? (fun l => l.id == layerId) with
      | some l =>
        match l.fabricObject with
        | some r => Heap.set s.fabricHeap r (fabricPropsOf (applyPatch l p))
        | none => s.fabricHeap
      | none => s.fabricHeap }

/-- `deleteTextLayer(layerId)`: remove the found layer's live object from the
canvas (only through the stored back-reference — no id scan here), filter the
layer out, clear the selection unconditionally, and record the closure
(pre-operation) snapshot. -/
def deleteTextLayer (s : EditorState) (layerId : String) : EditorState :=
  let removed :=
    match s.textLayers.find? (fun l => l.id == layerId) with
    | some l =>
      match l.fabricObject with
      | some r =>
        if s.canvas then s.canvasObjects.filter (fun o => o.ref != r)
        else s.canvasObjects
      | none => s.canvasObjects
    | none => s.canvasObjects
  let s1 := { s with
      canvasObjects := removed
      textLayers := s.textLayers.filter (fun l => l.id != layerId)
      selectedTextLayer := none }
  addToHistory s1 (snapshotOf s)

/-- Swap the elements at positions `i` and `i+1`; identity when `i+1` is out
of range. -/
def swapAdj : List α → ℕ → List α
  | a :: b :: t, 0 => b :: a :: t
  | a :: t, Nat.succ n => a :: swapAdj t n
  | l, _ => l

/-- `canvas.bringObjectForward(obj)`: move the object one position toward the
top of the stacking order; no effect if it is absent or already on top. -/
def bringObjectForward (objs : List CanvasObj) (r : ℕ) : List CanvasObj :=
  let j := objs.findIdx (fun o => o.ref == r)
  if j + 1 < objs.length then swapAdj objs j else objs

/-- `canvas.sendObjectBackwards(obj)`: move the object one position toward the
bottom; no effect if it is absent or already at the bottom. -/
def sendObjectBackwards (objs : List CanvasObj) (r : ℕ) : List CanvasObj :=
  let j := objs.findIdx (fun o => o.ref == r)
  if j < objs.length ∧ 0 < j then swapAdj objs (j - 1) else objs

/-- The back-reference resolution of `moveLayerUp`/`moveLayerDown`: take the
stored `fabricObject` if present, otherwise scan
`canvas.getObjects().find(obj => obj.layerId === layerId)`. -/
def resolveFabric (s : EditorState) (l : TextLayer) (layerId : String) :
    Option ℕ :=
  match l.fabricObject with
  | some r => some r
  | none => (s.canvasObjects.find? (fun o => o.layerId == layerId)).map
      CanvasObj.ref

/-- `moveLayerUp(layerId)`: no-op when the id is absent, already topmost, or
there is no canvas.  Otherwise the array order is updated by the two splices
(remove at `i`, insert at `i+1`); then the live object is resolved; if found,
the canvas gets `bringObjectForward` and the closure snapshot is recorded (and
when the resolution came from the id scan, the recovered reference is also
written into the layer entry by a queued functional update); if not found, the
array is left reordered with no canvas change and no history entry. -/
def moveLayerUp (s : EditorState) (layerId : String) : EditorState :=
  let i := s.textLayers.findIdx (fun l => l.id == layerId)
  match s.textLayers.get? i with
  | none => s
  | some layer =>
    if i = s.textLayers.length - 1 then s
    else if ¬ s.canvas then s
    else
      let newTextLayers := (s.textLayers.eraseIdx i).insertIdx (i + 1) layer
      match resolveFabric s layer layerId with
      | some r =>
        let layers1 :=
          if layer.fabricObject.isSome then newTextLayers
          else newTextLayers.map (fun l =>
            if l.id = layerId then { l with fabricObject := some r } else l)
        let s1 := { s with
            textLayers := layers1
            canvasObjects := bringObjectForward s.canvasObjects r }
        addToHistory s1 (snapshotOf s)
      | none => { s with textLayers := newTextLayers }

/-- `moveLayerDown(layerId)`: symmetric to `moveLayerUp`, with the boundary at
index 0 and `sendObjectBackwards` on the canvas. -/
def moveLayerDown (s : EditorState) (layerId : String) : EditorState :=
  let i := s.textLayers.findIdx (fun l => l.id == layerId)
  match s.textLayers.get? i with
  | none => s
  | some layer =>
    if i = 0 then s
    else if ¬ s.canvas then s
    else
      let newTextLayers := (s.textLayers.eraseIdx i).insertIdx (i - 1) layer
      match resolveFabric s layer layerId with
      | some r =>
        let layers1 :=
          if layer.fabricObject.isSome then newTextLayers
          else newTextLayers.map (fun l =>
            if l.id = layerId then { l with fabricObject := some r } else l)
        let s1 := { s with
            textLayers := layers1
            canvasObjects := sendObjectBackwards s.canvasObjects r }
        addToHistory s1 (snapshotOf s)
      | none => { s with textLayers := newTextLayers }

/-- `restoreState(state)`: no-op without a canvas; otherwise clear the canvas,
rebuild a fresh live object per snapshot layer, and replace background, canvas
size and layer list with the snapshot's values.  The final
`setTextLayers(state.textLayers)` replacement keeps the snapshot's stored layer
entries verbatim (including whatever back-references they carried). -/
def restoreState (s : EditorState) (st : DesignState) : EditorState :=
  if ¬ s.canvas then s
  else
    let cleared := { s with canvasObjects := ([] : List CanvasObj) }
    let rebuilt := st.textLayers.foldl
      (fun acc l => (addTextToCanvasObjects acc l).1) cleared
    { rebuilt with
      backgroundImage := st.backgroundImage
      canvasWidth := st.canvasWidth
      canvasHeight := st.canvasHeight
      textLayers := st.textLayers }

/-- `undo()`: only when `historyIndex > 0`; restore `history[historyIndex-1]`
and decrement the index. -/
def undo (s : EditorState) : EditorState :=
  if 0 < s.historyIndex then
    match s.history.get? (s.historyIndex - 1).toNat with
    | some st => { restoreState s st with historyIndex := s.historyIndex - 1 }
    | none => s
  else s

/-- `redo()`: only when `historyIndex < history.length - 1`; restore
`history[historyIndex+1]` and increment the index. -/
def redo (s : EditorState) : EditorState :=
  if s.historyIndex < (s.history.length : Int) - 1 then
    match s.history.get? (s.historyIndex + 1).toNat with
    | some st => { restoreState s st with historyIndex := s.historyIndex + 1 }
    | none => s
  else s

/-- The target-size computation of `loadBackgroundImage`: clamp to 1200×800
preserving the source aspect, native size when within the bound on both
axes. -/
def computeCanvasSize (imgWidth imgHeight : ℚ) : ℚ × ℚ :=
  let maxWidth : ℚ := 1200
  let maxHeight : ℚ := 800
  let imgAspect := imgWidth / imgHeight
  if maxWidth < imgWidth ∨ maxHeight < imgHeight then
    if maxWidth / maxHeight < imgAspect then
      (maxWidth, maxWidth / imgAspect)
    else
      (maxHeight * imgAspect, maxHeight)
  else
    (imgWidth, imgHeight)

/-- The state effect of a successful `loadBackgroundImage` on the canvas
dimensions (`setCanvasSize`/`setDimensions` with the computed target size). -/
def applyLoadBackgroundImage (s : EditorState) (imgWidth imgHeight : ℚ) :
    EditorState :=
  let wh := computeCanvasSize imgWidth imgHeight
  { s with canvasWidth := wh.1, canvasHeight := wh.2 }

/-! ## Persistence adapter

`saveToStorage` writes one JSON record under the key
`imageTextComposerDesign`; `loadFromStorage` parses it back.  JSON keeps every
plain layer attribute exactly.  The live `fabricObject` serializes through
fabric's `toJSON` into an inert data blob which the load path never uses as a
canvas object (it builds fresh objects via `addTextToCanvas`), so the stored
record is modelled by the plain attributes only. -/

/-- A text layer as it appears in the persisted JSON record. -/
structure StoredLayer where
  id : String
  text : String
  fontFamily : String
  fontSize : ℚ
  fontWeight : String
  color : String
  opacity : ℚ
  alignment : String
  x : ℚ
  y : ℚ
  rotation : ℚ
  visible : Bool
deriving DecidableEq

/-- The persisted record under the `imageTextComposerDesign` key. -/
structure Stored where
  backgroundImage : Option String
  backgroundImagePath : Option String
  textLayers : List StoredLayer
  canvasWidth : ℚ
  canvasHeight : ℚ
deriving DecidableEq

/-- JSON serialization of one layer (the attributes that survive the round
trip). -/
def serializeLayer (l : TextLayer) : StoredLayer :=
  { id := l.id
    text := l.text
    fontFamily := l.fontFamily
    fontSize := l.fontSize
    fontWeight := l.fontWeight
    color := l.color
    opacity := l.opacity
    alignment := l.alignment
    x := l.x
    y := l.y
    rotation := l.rotation
    visible := l.visible }

/-- JSON parse of one stored layer back into a `TextLayer`; it carries no live
canvas object. -/
def parseLayer (sl : StoredLayer) : TextLayer :=
  { id := sl.id
    text := sl.text
    fontFamily := sl.fontFamily
    fontSize := sl.fontSize
    fontWeight := sl.fontWeight
    color := sl.color
    opacity := sl.opacity
    alignment := sl.alignment
    x := sl.x
    y := sl.y
    rotation := sl.rotation
    visible := sl.visible
    fabricObject := none }

/-- A layer entry with its live-object reference dropped: what a layer looks
like after a serialize/parse round trip. -/
def stripFabric (l : TextLayer) : TextLayer :=
  { l with fabricObject := none }

/-- `getImagePublicUrl(path)` of the blob-store collaborator: a public URL
derived from the pointer (modelled from the collaborator contract
`publicUrl(pointer) -> url`). -/
def getImagePublicUrl (path : String) : String :=
  "supabase-public/" ++ path

/-- The body of `saveToStorage` (after the autosave guards): the record it
writes, or `none` when it throws before the write (Supabase upload failure).
`useSupabase` is `shouldUseSupabase()`, `prev` the currently persisted record
(for the upload-deduplication check), `uploadResult` the outcome of
`uploadImageToSupabase` (`none` = the upload threw). -/
def buildStored (s : EditorState) (useSupabase : Bool) (prev : Option Stored)
    (uploadResult : Option String) : Option Stored :=
  let base : Stored :=
    { backgroundImage := none
      backgroundImagePath := none
      textLayers := s.textLayers.map serializeLayer
      canvasWidth := s.canvasWidth
      canvasHeight := s.canvasHeight }
  match s.backgroundImage with
  | none => some base
  | some bg =>
    if s.isUploading then some base
    else if useSupabase then
      match prev.bind Stored.backgroundImagePath with
      | some p =>
        some { base with
          backgroundImagePath := some p
          backgroundImage := some (getImagePublicUrl p) }
      | none =>
        match uploadResult with
        | some path =>
          some { base with
            backgroundImagePath := some path
            backgroundImage := some (getImagePublicUrl path) }
        | none => none
    else
      some { base with backgroundImage := some bg }

/-- One run of the autosave effect: no write without a canvas, no write while
`uploadState.isUploading` is set; otherwise the debounced `saveToStorage` runs
and performs the returned write (if any) to the local store. -/
def autosaveEffect (s : EditorState) (useSupabase : Bool)
    (prev : Option Stored) (uploadResult : Option String) : Option Stored :=
  if ¬ s.canvas then none
  else if s.isUploading then none
  else buildStored s useSupabase prev uploadResult

/-- The dimension restore of `loadFromStorage`: applied only when both stored
dimensions are truthy (nonzero). -/
def loadDims (s : EditorState) (d : Stored) : EditorState :=
  if d.canvasWidth ≠ 0 ∧ d.canvasHeight ≠ 0 then
    { s with canvasWidth := d.canvasWidth, canvasHeight := d.canvasHeight }
  else s

/-- The background resolution of `loadFromStorage`: with a Supabase pointer,
fetch the bytes (`supabaseFetch` models `getImageFromSupabase`) and keep the
stored public URL (or derive it from the pointer) as the state value, falling
back to the stored URL itself when the fetch fails; without a pointer, take
the stored value; with nothing stored the state value is untouched. -/
def loadBg (s : EditorState) (useSupabase : Bool) (d : Stored)
    (supabaseFetch : String → Option String) : Option String :=
  match d.backgroundImagePath, useSupabase with
  | some p, true =>
    match supabaseFetch p with
    | some _data => some ((d.backgroundImage).getD (getImagePublicUrl p))
    | none =>
      match d.backgroundImage with
      | some u => some u
      | none => s.backgroundImage
  | _, _ =>
    match d.backgroundImage with
    | some u => some u
    | none => s.backgroundImage

/-- `loadFromStorage`: nothing without a canvas or without a (parsable)
record; otherwise restore truthy canvas dimensions, resolve the background
reference, rebuild a live canvas object per stored layer, and install the
parsed layer list. -/
def loadFromStorage (s : EditorState) (useSupabase : Bool)
    (stored : Option Stored) (supabaseFetch : String → Option String) :
    EditorState :=
  if s.canvas then
    match stored with
    | none => s
    | some d =>
      let s2 := { loadDims s d with
        backgroundImage := loadBg s useSupabase d supabaseFetch }
      let parsed := d.textLayers.map parseLayer
      { parsed.foldl (fun acc l => (addTextToCanvasObjects acc l).1) s2 with
        textLayers := parsed }
  else s

/-! ## Operation sequences over the layer list -/

/-- The layer operations quantified over by the order invariant.  `add` carries
the `Date.now()` reading its id is minted from. -/
inductive LayerOp where
  | add (now : ℕ)
  | del (id : String)
  | up (id : String)
  | down (id : String)
deriving DecidableEq

/-- Run one layer operation. -/
def applyOp (s : EditorState) : LayerOp → EditorState
  | .add now => addTextLayer s now
  | .del id => deleteTextLayer s id
  | .up id => moveLayerUp s id
  | .down id => moveLayerDown s id

/-- Run a sequence of layer operations. -/
def applyOps (s : EditorState) (ops : List LayerOp) : EditorState :=
  ops.foldl applyOp s

/-- The ids minted by the `add` operations of a sequence, in order. -/
def addIds : List LayerOp → List String
  | [] => []
  | .add n :: ops => toString n :: addIds ops
  | _ :: ops => addIds ops

/-- A sequence of `record` operations on the History Manager, starting from
the initial empty history with cursor −1. -/
def runRecords (snaps : List DesignState) : List DesignState × Int :=
  snaps.foldl (fun p snap => recordHistory p.1 p.2 snap) ([], -1)

/-- A concrete design snapshot, for witnesses. -/
def dsEmpty : DesignState :=
  { backgroundImage := none
    textLayers := []
    canvasWidth := 800
    canvasHeight := 600 }

/-! ## Theorems -/

/-- Folding `recordHistory` keeps the history length at `min recorded 20` and
the cursor at `length − 1`, as long as the start state satisfies the same
shape. -/
lemma recordHistory_fold_invariant (snaps : List DesignState) :
    ∀ (h : List DesignState) (idx : Int),
      h.length ≤ 20 → idx = (h.length : Int) - 1 →
      (snaps.foldl (fun p snap => recordHistory p.1 p.2 snap) (h, idx)).1.length
          = min (h.length + snaps.length) 20 ∧
      (snaps.foldl (fun p snap => recordHistory p.1 p.2 snap) (h, idx)).2
          = (min (h.length + snaps.length) 20 : ℕ) - 1 := by
  induction snaps with
  | nil =>
    intro h idx hlen hidx
    simp only [List.foldl_nil, List.length_nil, Nat.add_zero]
    constructor
    · omega
    · rw [hidx]; omega
  | cons snap rest ih =>
    intro h idx hlen hidx
    have htake : (idx + 1).toNat = h.length := by omega
    have hstep : recordHistory h idx snap =
        if 20 < h.length + 1 then ((h ++ [snap]).drop 1, idx)
        else (h ++ [snap], idx + 1) := by
      simp only [recordHistory, htake, List.take_length, List.length_append,
        List.length_singleton]
    by_cases hcap : 20 < h.length + 1
    · have hlen20 : h.length = 20 := by omega
      rw [List.foldl_cons, hstep, if_pos hcap]
      have hdrop : ((h ++ [snap]).drop 1).length = 20 := by
        simp [List.length_drop, hlen20]
      have := ih ((h ++ [snap]).drop 1) idx (by omega)
        (by rw [hdrop, hidx, hlen20])
      rw [hdrop] at this
      rw [this.1, this.2]
      simp only [List.length_cons]
      omega
    · rw [List.foldl_cons, hstep, if_neg hcap]
      have := ih (h ++ [snap]) (idx + 1)
        (by simp only [List.length_append, List.length_singleton]; omega)
        (by simp only [List.length_append, List.length_singleton]; omega)
      simp only [List.length_append, List.length_singleton] at this
      rw [this.1, this.2]
      simp only [List.length_cons]
      omega

/-- Whatever branch `recordHistory` takes, the snapshot just recorded is the
last (newest) history entry. -/
lemma recordHistory_getLast (h : List DesignState) (idx : Int)
    (snap : DesignState) :
    (recordHistory h idx snap).1.getLast? = some snap := by
  simp only [recordHistory]
  split
  · rename_i hcap
    rcases ht : h.take (idx + 1).toNat with _ | ⟨a, t⟩
    · have hlen : (h.take (idx + 1).toNat).length = 0 := by rw [ht]; rfl
      simp only [List.length_append, List.length_singleton] at hcap
      omega
    · simp [List.getLast?_concat]
  · exact List.getLast?_concat _

/-- **C1**: for every sequence of record operations the history length equals
`min recorded 20` — in particular it never exceeds 20 once more than 20
snapshots are recorded — and each single record either evicts the oldest entry
of the truncated-and-extended sequence with the cursor left alone (when the cap
would be exceeded) or advances the cursor by 1 with the snapshot appended right
after position cursor; either way the newest snapshot is the last entry. -/
theorem history_record_cap :
    (∀ snaps : List DesignState,
      (runRecords snaps).1.length = min snaps.length 20) ∧
    (∀ (h : List DesignState) (idx : Int) (snap : DesignState),
      (recordHistory h idx snap).1.getLast? = some snap ∧
      (20 < (h.take (idx + 1).toNat ++ [snap]).length →
        (recordHistory h idx snap).2 = idx ∧
        (recordHistory h idx snap).1 = (h.take (idx + 1).toNat ++ [snap]).tail) ∧
      (¬ 20 < (h.take (idx + 1).toNat ++ [snap]).length →
        (recordHistory h idx snap).2 = idx + 1 ∧
        (recordHistory h idx snap).1 = h.take (idx + 1).toNat ++ [snap])) := by
  constructor
  · intro snaps
    have := recordHistory_fold_invariant snaps [] (-1) (by simp) (by simp)
    simpa [runRecords] using this.1
  · intro h idx snap
    refine ⟨recordHistory_getLast h idx snap, ?_, ?_⟩
    · intro hcap
      simp only [recordHistory, if_pos hcap, List.drop_one, and_self, true_and]
    · intro hcap
      simp only [recordHistory, if_neg hcap, and_self]

/-- Witness for `history_record_cap`: recording into the empty history with
cursor −1 leaves the cursor at 0 and the history holding just the snapshot. -/
theorem history_record_cap_witness :
    (recordHistory [] (-1) dsEmpty).2 = 0 ∧
    (recordHistory [] (-1) dsEmpty).1 = [dsEmpty] := by
  have h := (history_record_cap.2 [] (-1) dsEmpty).2.2 (by decide)
  exact ⟨h.1, h.2⟩

/-- **C10**: `deleteTextLayer` sets `selectedTextLayer` to `null`
unconditionally, whatever layer (if any) was selected and whether or not the
deleted id exists. -/
theorem deleteTextLayer_clears_selection (s : EditorState) (layerId : String) :
    (deleteTextLayer s layerId).selectedTextLayer = none := rfl

/-- **C2** (code bug): `addToHistory` snapshots the closure (pre-operation)
state and no snapshot of the very first state is ever recorded, so from a
fresh editor (a) after one `addTextLayer` the history cursor sits at 0 and
`undo()` is a dead no-op — the new layer stays — and (b) after two
`addTextLayer`s, `undo()` jumps past the intermediate one-layer state straight
to the empty initial state, instead of yielding the state the last operation
started from; `redo()` then restores the one-layer state, not the two-layer
state the editor was in. -/
theorem undo_after_op_fails_to_restore :
    ((undo (addTextLayer initialEditorState 1)).textLayers.length = 1 ∧
      initialEditorState.textLayers.length = 0) ∧
    ((addTextLayer (addTextLayer initialEditorState 1) 2).textLayers.length = 2 ∧
      (addTextLayer initialEditorState 1).textLayers.length = 1 ∧
      (undo (addTextLayer (addTextLayer initialEditorState 1) 2)).textLayers = [] ∧
      (redo (undo (addTextLayer (addTextLayer initialEditorState 1) 2))).textLayers.length
        = 1) := by
  decide

/-- **C8**: for a source image of positive size (w, h), the canvas is set to
the native size when w ≤ 1200 and h ≤ 800 (no upscaling); otherwise the target
preserves the aspect ratio exactly (width·h = height·w) and fits in 1200×800;
in particular a 3000×1500 source yields a 1200×600 canvas. -/
theorem background_scaling (s : EditorState) (w h : ℚ)
    (hw : 0 < w) (hh : 0 < h) :
    ((w ≤ 1200 ∧ h ≤ 800) →
      (applyLoadBackgroundImage s w h).canvasWidth = w ∧
      (applyLoadBackgroundImage s w h).canvasHeight = h) ∧
    (¬ (w ≤ 1200 ∧ h ≤ 800) →
      (applyLoadBackgroundImage s w h).canvasWidth * h
          = (applyLoadBackgroundImage s w h).canvasHeight * w ∧
      (applyLoadBackgroundImage s w h).canvasWidth ≤ 1200 ∧
      (applyLoadBackgroundImage s w h).canvasHeight ≤ 800) ∧
    ((applyLoadBackgroundImage s 3000 1500).canvasWidth = 1200 ∧
      (applyLoadBackgroundImage s 3000 1500).canvasHeight = 600) := by
  have hw0 : w ≠ 0 := ne_of_gt hw
  have hh0 : h ≠ 0 := ne_of_gt hh
  refine ⟨?_, ?_, ?_⟩
  · intro hnat
    have hcond : ¬ ((1200 : ℚ) < w ∨ (800 : ℚ) < h) := by
      push_neg; exact ⟨hnat.1, hnat.2⟩
    simp [applyLoadBackgroundImage, computeCanvasSize, hcond]
  · intro hclamp
    have hcond : (1200 : ℚ) < w ∨ (800 : ℚ) < h := by
      by_contra hc; push_neg at hc; exact hclamp ⟨hc.1, hc.2⟩
    simp only [applyLoadBackgroundImage, computeCanvasSize, if_pos hcond]
    by_cases hasp : (1200 : ℚ) / 800 < w / h
    · have hmul : (1200 : ℚ) * h < w * 800 :=
        (div_lt_div_iff₀ (by norm_num) hh).mp hasp
      simp only [if_pos hasp]
      refine ⟨?_, by norm_num, ?_⟩
      · rw [div_div_eq_mul_div, div_mul_cancel₀ _ hw0]
      · rw [div_div_eq_mul_div, div_le_iff₀ hw]
        linarith
    · have hmul : w * 800 ≤ (1200 : ℚ) * h :=
        (div_le_div_iff₀ hh (by norm_num)).mp (not_lt.mp hasp)
      simp only [if_neg hasp]
      refine ⟨?_, ?_, by norm_num⟩
      · rw [mul_assoc, div_mul_cancel₀ _ hh0]
      · rw [mul_div_assoc', div_le_iff₀ hh]
        linarith
  · norm_num [applyLoadBackgroundImage, computeCanvasSize]

/-- Witness for `background_scaling` at the spec's scenario input 3000×1500. -/
theorem background_scaling_witness :
    (applyLoadBackgroundImage initialEditorState 3000 1500).canvasWidth = 1200 ∧
    (applyLoadBackgroundImage initialEditorState 3000 1500).canvasHeight = 600 :=
  (background_scaling initialEditorState 3000 1500 (by norm_num) (by norm_num)).2.2

/-- **C9**: while `isUploading` is set, the autosave routine performs zero
writes to the local store — over any burst of state changes the write trace is
empty — and any state that does produce a write has `isUploading` false; once
`isUploading` is false (with a canvas present; background-free case shown) the
debounced save writes the design record again. -/
theorem autosave_skips_during_upload (useSupabase : Bool) (prev : Option Stored)
    (uploadResult : Option String) :
    (∀ states : List EditorState, (∀ s ∈ states, s.isUploading = true) →
      states.filterMap
        (fun s => autosaveEffect s useSupabase prev uploadResult) = []) ∧
    (∀ s : EditorState,
      autosaveEffect s useSupabase prev uploadResult ≠ none →
      s.isUploading = false) ∧
    (∀ s : EditorState, s.canvas = true → s.isUploading = false →
      s.backgroundImage = none →
      autosaveEffect s useSupabase prev uploadResult =
        some { backgroundImage := none
               backgroundImagePath := none
               textLayers := s.textLayers.map serializeLayer
               canvasWidth := s.canvasWidth
               canvasHeight := s.canvasHeight }) := by
  refine ⟨?_, ?_, ?_⟩
  · intro states hupl
    rw [List.filterMap_eq_nil_iff]
    intro s hs
    simp [autosaveEffect, hupl s hs]
  · intro s hne
    by_contra hup
    rw [Bool.not_eq_false] at hup
    exact hne (by simp [autosaveEffect, hup])
  · intro s hc hup hbg
    simp [autosaveEffect, buildStored, hc, hup, hbg]

/-- A state captured mid-upload, for the autosave witness. -/
def uploadingState : EditorState :=
  { initialEditorState with isUploading := true }

/-- Witness for `autosave_skips_during_upload`: two state changes inside the
debounce window while `isUploading` holds produce zero writes. -/
theorem autosave_skips_during_upload_witness :
    [uploadingState,
      { uploadingState with canvasWidth := 900 }].filterMap
        (fun s => autosaveEffect s true none none) = [] :=
  (autosave_skips_during_upload true none none).1 _ (by decide)

/-- Whatever branch `saveToStorage` takes for the background, the written
record carries the live layer list (serialized) and the live canvas
dimensions. -/
lemma buildStored_spec {s : EditorState} {u : Bool} {prev : Option Stored}
    {up : Option String} {st : Stored}
    (hsave : buildStored s u prev up = some st) :
    st.textLayers = s.textLayers.map serializeLayer ∧
    st.canvasWidth = s.canvasWidth ∧ st.canvasHeight = s.canvasHeight := by
  simp only [buildStored] at hsave
  revert hsave
  repeat' split
  all_goals intro hsave
  all_goals cases hsave
  all_goals exact ⟨rfl, rfl, rfl⟩

/-- Rebuilding canvas objects for a list of layers touches only the fabric
heap and the canvas stacking list. -/
lemma foldl_addText_fields (ls : List TextLayer) :
    ∀ s : EditorState,
      (ls.foldl (fun acc l => (addTextToCanvasObjects acc l).1) s).canvasWidth
          = s.canvasWidth ∧
      (ls.foldl (fun acc l => (addTextToCanvasObjects acc l).1) s).canvasHeight
          = s.canvasHeight ∧
      (ls.foldl (fun acc l => (addTextToCanvasObjects acc l).1) s).textLayers
          = s.textLayers := by
  induction ls with
  | nil => intro s; exact ⟨rfl, rfl, rfl⟩
  | cons l t ih => intro s; exact ih ((addTextToCanvasObjects s l).1)

/-- One layer after a serialize/parse round trip: all plain attributes kept,
the live-object reference gone. -/
lemma parse_serialize (l : TextLayer) :
    parseLayer (serializeLayer l) = stripFabric l := rfl

/-- Reduction of `loadFromStorage` on a present record with a canvas. -/
lemma loadFromStorage_some (t : EditorState) (u : Bool) (d : Stored)
    (fetch : String → Option String) (ht : t.canvas = true) :
    loadFromStorage t u (some d) fetch =
      { (d.textLayers.map parseLayer).foldl
          (fun acc l => (addTextToCanvasObjects acc l).1)
          { loadDims t d with backgroundImage := loadBg t u d fetch } with
        textLayers := d.textLayers.map parseLayer } := by
  unfold loadFromStorage
  rw [if_pos ht]

/-- `loadDims` restores both dimensions when they are nonzero. -/
lemma loadDims_of_ne (t : EditorState) (d : Stored)
    (hW : d.canvasWidth ≠ 0) (hH : d.canvasHeight ≠ 0) :
    loadDims t d =
      { t with canvasWidth := d.canvasWidth, canvasHeight := d.canvasHeight } := by
  unfold loadDims
  rw [if_pos ⟨hW, hH⟩]

/-- **C5** (amended): when both canvas dimensions are nonzero, a save-path
write followed by the load path reconstructs the layer list exactly — same
count, same z-order, every plain attribute identical (only the live-object
reference is dropped) — and the same canvas dimensions.  (With a zero
dimension the load path skips them: `round_trip_drops_zero_dims`.) -/
theorem save_load_round_trip (s t : EditorState) (useSupabase : Bool)
    (prev : Option Stored) (uploadResult : Option String)
    (fetch : String → Option String) (st : Stored)
    (hW : s.canvasWidth ≠ 0) (hH : s.canvasHeight ≠ 0)
    (hsave : autosaveEffect s useSupabase prev uploadResult = some st)
    (ht : t.canvas = true) :
    (loadFromStorage t useSupabase (some st) fetch).textLayers
        = s.textLayers.map stripFabric ∧
    (loadFromStorage t useSupabase (some st) fetch).textLayers.length
        = s.textLayers.length ∧
    (loadFromStorage t useSupabase (some st) fetch).canvasWidth
        = s.canvasWidth ∧
    (loadFromStorage t useSupabase (some st) fetch).canvasHeight
        = s.canvasHeight := by
  have hb : buildStored s useSupabase prev uploadResult = some st := by
    simp only [autosaveEffect] at hsave
    by_cases hc : s.canvas
    · by_cases hup : s.isUploading
      · simp [hc, hup] at hsave
      · simpa [hc, hup] using hsave
    · simp [hc] at hsave
  obtain ⟨hl, hw, hh⟩ := buildStored_spec hb
  have hW' : st.canvasWidth ≠ 0 := by rw [hw]; exact hW
  have hH' : st.canvasHeight ≠ 0 := by rw [hh]; exact hH
  have hlayers : st.textLayers.map parseLayer = s.textLayers.map stripFabric := by
    rw [hl, List.map_map]
    rfl
  rw [loadFromStorage_some t useSupabase st fetch ht, loadDims_of_ne t st hW' hH']
  have hfold := foldl_addText_fields (st.textLayers.map parseLayer)
    { ({ t with canvasWidth := st.canvasWidth, canvasHeight := st.canvasHeight }
        : EditorState) with
      backgroundImage := loadBg t useSupabase st fetch }
  exact ⟨hlayers, (congrArg List.length hlayers).trans (List.length_map _ _),
    hfold.1.trans hw, hfold.2.1.trans hh⟩

/-- A representative text layer with a live-object reference. -/
def sampleLayer : TextLayer :=
  { id := "7"
    text := "hello"
    fontFamily := "Arial"
    fontSize := 32
    fontWeight := "normal"
    color := "#000000"
    opacity := 1
    alignment := "left"
    x := 10
    y := 20
    rotation := 0
    visible := true
    fabricObject := some 0 }

/-- An editor holding one layer, for the round-trip witness. -/
def sampleEditor : EditorState :=
  { initialEditorState with textLayers := [sampleLayer] }

/-- The record the save path writes for `sampleEditor`. -/
def sampleStored : Stored :=
  { backgroundImage := none
    backgroundImagePath := none
    textLayers := [serializeLayer sampleLayer]
    canvasWidth := 800
    canvasHeight := 600 }

/-- Witness for `save_load_round_trip` on a one-layer design. -/
theorem save_load_round_trip_witness :
    (loadFromStorage initialEditorState false (some sampleStored)
        (fun _ => none)).textLayers = [stripFabric sampleLayer] ∧
    (loadFromStorage initialEditorState false (some sampleStored)
        (fun _ => none)).canvasWidth = 800 := by
  have h := save_load_round_trip sampleEditor initialEditorState false none none
    (fun _ => none) sampleStored (by decide) (by decide) (by decide) rfl
  exact ⟨h.1, h.2.2.1⟩

/-- An editor whose canvas width is 0 (a `DesignState` value the claim
quantifies over). -/
def zeroWidthEditor : EditorState :=
  { initialEditorState with canvasWidth := 0, textLayers := [sampleLayer] }

/-- The record the save path writes for `zeroWidthEditor`. -/
def zeroWidthStored : Stored :=
  { backgroundImage := none
    backgroundImagePath := none
    textLayers := [serializeLayer sampleLayer]
    canvasWidth := 0
    canvasHeight := 600 }

/-- **C5** (counterexample to the claim as stated): a `DesignState` with
`canvasWidth = 0` and one layer saves and reloads into a state whose
`canvasWidth` is the editor's current 800, not the original 0: the load path's
truthiness guard skips restoring falsy dimensions, so the reconstructed
canvas size is not identical for every `DesignState`. -/
theorem round_trip_drops_zero_dims :
    autosaveEffect zeroWidthEditor false none none = some zeroWidthStored ∧
    zeroWidthEditor.canvasWidth = 0 ∧
    (loadFromStorage initialEditorState false (some zeroWidthStored)
        (fun _ => none)).canvasWidth = 800 := by decide

/-- The canvas data reachable from a stored snapshot through its layers'
live-object references, resolved against a fabric heap. -/
def snapshotCanvasView (heap : Heap) (d : DesignState) :
    List (Option FabricProps) :=
  d.textLayers.map (fun l => l.fabricObject.bind (fun r => Heap.get? heap r))

/-- An editor whose single layer is bound to live canvas object 0. -/
def aliasEditor : EditorState :=
  { initialEditorState with
    textLayers := [sampleLayer]
    canvasObjects := [⟨0, "7"⟩]
    fabricHeap := [(0, fabricPropsOf sampleLayer)] }

/-- **C3** (counterexample to the claim as stated): a recorded history entry
aliases the live canvas objects.  After an operation records a snapshot (here
`deleteTextLayer` of a non-existent id, whose closure snapshot holds the
current layer entries), `updateTextLayer` on the current state mutates the
shared live object, and the canvas data reachable from the stored snapshot
changes with it (its `left` becomes the new x, 99, instead of the snapshotted
10): the snapshot is not an immutable deep copy. -/
theorem snapshot_aliases_live_canvas :
    (updateTextLayer (deleteTextLayer aliasEditor "nope") "7"
        { x := some 99 }).history.get? 0 = some (snapshotOf aliasEditor) ∧
    snapshotCanvasView (deleteTextLayer aliasEditor "nope").fabricHeap
        (snapshotOf aliasEditor)
      = [some (fabricPropsOf sampleLayer)] ∧
    snapshotCanvasView (updateTextLayer (deleteTextLayer aliasEditor "nope") "7"
        { x := some 99 }).fabricHeap (snapshotOf aliasEditor)
      = [some { fabricPropsOf sampleLayer with left := 99 }] ∧
    snapshotCanvasView (deleteTextLayer aliasEditor "nope").fabricHeap
        (snapshotOf aliasEditor)
      ≠ snapshotCanvasView
          (updateTextLayer (deleteTextLayer aliasEditor "nope") "7"
            { x := some 99 }).fabricHeap (snapshotOf aliasEditor) := by
  decide

/-- **C3** (amended): history snapshots are shallow, not deep copies: the
snapshot a history-recording operation stores is the closure state's layer
list verbatim — sharing every live-canvas-object reference with the state's
layer entries — and `updateTextLayer` writes through such a shared reference
into the one fabric heap, so the canvas data reachable from stored snapshots
changes with the live object.  (Plain layer attributes inside a snapshot are
stable only because state updates replace layer entries instead of mutating
them.) -/
theorem snapshot_shares_references (s : EditorState) (id' : String) :
    ((deleteTextLayer s id').history.getLast? = some (snapshotOf s) ∧
     (snapshotOf s).textLayers.map (fun l => l.fabricObject)
        = s.textLayers.map (fun l => l.fabricObject)) ∧
    (∀ (lid : String) (l : TextLayer) (r : ℕ) (p : LayerPatch),
      s.textLayers.find? (fun a => a.id == lid) = some l →
      l.fabricObject = some r →
      (updateTextLayer s lid p).fabricHeap
        = Heap.set s.fabricHeap r (fabricPropsOf (applyPatch l p))) := by
  refine ⟨⟨?_, rfl⟩, ?_⟩
  · exact recordHistory_getLast s.history s.historyIndex (snapshotOf s)
  · intro lid l r p hfind hfab
    simp only [updateTextLayer, hfind, hfab]

/-- Witness for `snapshot_shares_references` on the one-layer editor. -/
theorem snapshot_shares_references_witness :
    (deleteTextLayer aliasEditor "nope").history.getLast?
        = some (snapshotOf aliasEditor) ∧
    (updateTextLayer aliasEditor "7" { x := some 99 }).fabricHeap
      = Heap.set aliasEditor.fabricHeap 0
          (fabricPropsOf (applyPatch sampleLayer { x := some 99 })) := by
  have h := snapshot_shares_references aliasEditor "nope"
  exact ⟨h.1.1, h.2 "7" sampleLayer 0 { x := some 99 } (by decide) (by decide)⟩

/-! ## Order invariants for add/delete/reorder sequences -/

/-- `swapAdj` only permutes. -/
lemma swapAdj_perm (l : List α) (i : ℕ) : (swapAdj l i).Perm l := by
  induction l generalizing i with
  | nil => exact List.Perm.refl _
  | cons a t ih =>
    cases i with
    | zero =>
      cases t with
      | nil => exact List.Perm.refl _
      | cons b t2 => exact List.Perm.swap a b t2
    | succ n =>
      cases t with
      | nil => exact List.Perm.refl _
      | cons b t2 => exact List.Perm.cons a (ih n)

/-- Unfolding equation of `swapAdj` on a cons cell with a positive index. -/
lemma swapAdj_cons_succ (a : α) (t : List α) (n : ℕ) :
    swapAdj (a :: t) (n + 1) = a :: swapAdj t n := by
  cases t <;> rfl

/-- `swapAdj` commutes with `map`. -/
lemma map_swapAdj (f : α → β) (l : List α) :
    ∀ i : ℕ, (swapAdj l i).map f = swapAdj (l.map f) i := by
  induction l with
  | nil => intro i; rfl
  | cons a t ih =>
    intro i
    cases i with
    | zero =>
      cases t with
      | nil => rfl
      | cons b t2 => rfl
    | succ n =>
      cases t with
      | nil => rfl
      | cons b t2 => simpa [swapAdj] using ih n

/-- Swapping the same adjacent pair twice is the identity. -/
lemma swapAdj_swapAdj (l : List α) : ∀ i : ℕ, swapAdj (swapAdj l i) i = l := by
  induction l with
  | nil => intro i; rfl
  | cons a t ih =>
    intro i
    cases i with
    | zero =>
      cases t with
      | nil => rfl
      | cons b t2 => rfl
    | succ n =>
      cases t with
      | nil => rfl
      | cons b t2 => simpa [swapAdj] using ih n

/-- The two splices of the reorder-up path (`splice(i, 1)` then
`splice(i + 1, 0, moved)`) swap the element at `i` with its upper neighbour. -/
lemma eraseIdx_insertIdx_succ (l : List α) :
    ∀ (i : ℕ) (x : α), l.get? i = some x → i + 1 < l.length →
      (l.eraseIdx i).insertIdx (i + 1) x = swapAdj l i := by
  induction l with
  | nil => intro i x hget _; simp at hget
  | cons a t ih =>
    intro i x hget hlt
    cases i with
    | zero =>
      simp only [List.get?_cons_zero, Option.some.injEq] at hget
      subst hget
      cases t with
      | nil => simp at hlt
      | cons b t2 =>
        simp [List.eraseIdx, List.insertIdx_succ_cons, List.insertIdx_zero,
          swapAdj]
    | succ n =>
      simp only [List.get?_cons_succ] at hget
      simp only [List.length_cons] at hlt
      have := ih n x hget (by omega)
      simp only [List.eraseIdx, List.insertIdx_succ_cons, swapAdj]
      rw [this]

/-- The two splices of the reorder-down path (`splice(i, 1)` then
`splice(i - 1, 0, moved)`) swap the element at `i` with its lower
neighbour. -/
lemma eraseIdx_insertIdx_pred (l : List α) :
    ∀ (i : ℕ) (x : α), l.get? i = some x → 0 < i →
      (l.eraseIdx i).insertIdx (i - 1) x = swapAdj l (i - 1) := by
  induction l with
  | nil => intro i x hget _; simp at hget
  | cons a t ih =>
    intro i x hget hpos
    cases i with
    | zero => omega
    | succ n =>
      simp only [List.get?_cons_succ] at hget
      cases n with
      | zero =>
        cases t with
        | nil => simp at hget
        | cons b t2 =>
          simp only [List.get?_cons_zero, Option.some.injEq] at hget
          subst hget
          simp [List.eraseIdx, List.insertIdx_zero, swapAdj]
      | succ m =>
        have hrec := ih (m + 1) x hget (by omega)
        rw [Nat.succ_sub_one] at hrec
        rw [Nat.succ_sub_one, List.eraseIdx_cons_succ, List.insertIdx_succ_cons,
          swapAdj_cons_succ, hrec]

/-- The back-reference-refresh map leaves all ids unchanged. -/
lemma ids_map_update (layers : List TextLayer) (lid : String) (r : ℕ) :
    (layers.map (fun l =>
        if l.id = lid then { l with fabricObject := some r } else l)).map
      (fun l => l.id) = layers.map (fun l => l.id) := by
  rw [List.map_map]
  apply List.map_congr_left
  intro a _
  by_cases h : a.id = lid
  · simp [h]
  · simp [h]

/-- `addTextLayer` appends exactly one id — the minted timestamp — when a
canvas exists, and nothing otherwise. -/
lemma addTextLayer_ids (s : EditorState) (now : ℕ) :
    (addTextLayer s now).textLayers.map (fun l => l.id)
      = if s.canvas then
          s.textLayers.map (fun l => l.id) ++ [toString now]
        else s.textLayers.map (fun l => l.id) := by
  by_cases hc : (s.canvas : Prop)
  · simp [addTextLayer, hc, addToHistory, newTextLayer]
  · simp [addTextLayer, hc]

/-- `deleteTextLayer` only removes ids. -/
lemma deleteTextLayer_ids_sublist (s : EditorState) (lid : String) :
    ((deleteTextLayer s lid).textLayers.map (fun l => l.id)).Sublist
      (s.textLayers.map (fun l => l.id)) :=
  (List.filter_sublist _).map _

/-- The layer list after `moveLayerUp` is either untouched or, at the id
level, an adjacent swap of the original. -/
lemma moveLayerUp_textLayers_cases (s : EditorState) (lid : String) :
    (moveLayerUp s lid).textLayers = s.textLayers ∨
    ∃ i, (moveLayerUp s lid).textLayers.map (fun l => l.id)
          = swapAdj (s.textLayers.map (fun l => l.id)) i := by
  simp only [moveLayerUp]
  split
  · exact Or.inl rfl
  · rename_i layer hget
    split
    · exact Or.inl rfl
    · rename_i htop
      split
      · exact Or.inl rfl
      · rename_i hcanvas
        obtain ⟨hi, -⟩ := List.get?_eq_some.mp hget
        have hswap : (s.textLayers.eraseIdx
              (s.textLayers.findIdx fun l => l.id == lid)).insertIdx
              ((s.textLayers.findIdx fun l => l.id == lid) + 1) layer
            = swapAdj s.textLayers (s.textLayers.findIdx fun l => l.id == lid) :=
          eraseIdx_insertIdx_succ _ _ layer hget (by omega)
        refine Or.inr ⟨s.textLayers.findIdx fun l => l.id == lid, ?_⟩
        split
        · rename_i r hres
          split
          · show ((s.textLayers.eraseIdx _).insertIdx _ layer).map
                (fun l => l.id) = _
            rw [hswap, map_swapAdj]
          · show (((s.textLayers.eraseIdx _).insertIdx _ layer).map
                (fun l => if l.id = lid then { l with fabricObject := some r }
                  else l)).map (fun l => l.id) = _
            rw [ids_map_update, hswap, map_swapAdj]
        · show ((s.textLayers.eraseIdx _).insertIdx _ layer).map
              (fun l => l.id) = _
          rw [hswap, map_swapAdj]

/-- The layer list after `moveLayerDown` is either untouched or, at the id
level, an adjacent swap of the original. -/
lemma moveLayerDown_textLayers_cases (s : EditorState) (lid : String) :
    (moveLayerDown s lid).textLayers = s.textLayers ∨
    ∃ i, (moveLayerDown s lid).textLayers.map (fun l => l.id)
          = swapAdj (s.textLayers.map (fun l => l.id)) i := by
  simp only [moveLayerDown]
  split
  · exact Or.inl rfl
  · rename_i layer hget
    split
    · exact Or.inl rfl
    · rename_i hbot
      split
      · exact Or.inl rfl
      · rename_i hcanvas
        have hswap : (s.textLayers.eraseIdx
              (s.textLayers.findIdx fun l => l.id == lid)).insertIdx
              ((s.textLayers.findIdx fun l => l.id == lid) - 1) layer
            = swapAdj s.textLayers
                ((s.textLayers.findIdx fun l => l.id == lid) - 1) :=
          eraseIdx_insertIdx_pred _ _ layer hget (by omega)
        refine Or.inr ⟨(s.textLayers.findIdx fun l => l.id == lid) - 1, ?_⟩
        split
        · rename_i r hres
          split
          · show ((s.textLayers.eraseIdx _).insertIdx _ layer).map
                (fun l => l.id) = _
            rw [hswap, map_swapAdj]
          · show (((s.textLayers.eraseIdx _).insertIdx _ layer).map
                (fun l => if l.id = lid then { l with fabricObject := some r }
                  else l)).map (fun l => l.id) = _
            rw [ids_map_update, hswap, map_swapAdj]
        · show ((s.textLayers.eraseIdx _).insertIdx _ layer).map
              (fun l => l.id) = _
          rw [hswap, map_swapAdj]

/-- Reorder-up only permutes the id sequence. -/
lemma moveLayerUp_ids_perm (s : EditorState) (lid : String) :
    ((moveLayerUp s lid).textLayers.map (fun l => l.id)).Perm
      (s.textLayers.map (fun l => l.id)) := by
  rcases moveLayerUp_textLayers_cases s lid with heq | ⟨i, heq⟩
  · rw [heq]
  · rw [heq]; exact swapAdj_perm _ i

/-- Reorder-down only permutes the id sequence. -/
lemma moveLayerDown_ids_perm (s : EditorState) (lid : String) :
    ((moveLayerDown s lid).textLayers.map (fun l => l.id)).Perm
      (s.textLayers.map (fun l => l.id)) := by
  rcases moveLayerDown_textLayers_cases s lid with heq | ⟨i, heq⟩
  · rw [heq]
  · rw [heq]; exact swapAdj_perm _ i

/-- Induction core for the order invariant: if the current ids are distinct
and drawn from a pool `U`, and the sequence's minted add-ids are distinct and
avoid `U`, the ids stay distinct throughout. -/
lemma applyOps_ids_nodup : ∀ (ops : List LayerOp) (s : EditorState)
    (U : List String),
    (s.textLayers.map (fun l => l.id)).Nodup →
    (∀ a ∈ s.textLayers.map (fun l => l.id), a ∈ U) →
    (addIds ops).Nodup →
    (∀ a ∈ addIds ops, a ∉ U) →
    ((applyOps s ops).textLayers.map (fun l => l.id)).Nodup := by
  intro ops
  induction ops with
  | nil => intro s U h1 _ _ _; exact h1
  | cons op rest ih =>
    intro s U h1 h2 h3 h4
    cases op with
    | add now =>
      simp only [addIds, List.nodup_cons] at h3
      have hfresh : toString now ∉ s.textLayers.map (fun l => l.id) :=
        fun hmem => h4 (toString now) (List.mem_cons_self _ _) (h2 _ hmem)
      refine ih (addTextLayer s now) (toString now :: U) ?_ ?_ h3.2 ?_
      · rw [addTextLayer_ids]
        by_cases hc : (s.canvas : Prop)
        · rw [if_pos hc]
          simp only [List.nodup_append, List.nodup_singleton]
          exact ⟨h1, trivial, fun a ha hb => (List.mem_singleton.mp hb ▸ hfresh) ha⟩
        · rw [if_neg hc]; exact h1
      · intro a ha
        rw [addTextLayer_ids] at ha
        by_cases hc : (s.canvas : Prop)
        · rw [if_pos hc] at ha
          rcases List.mem_append.mp ha with hin | hnew
          · exact List.mem_cons_of_mem _ (h2 a hin)
          · exact List.mem_singleton.mp hnew ▸ List.mem_cons_self _ _
        · rw [if_neg hc] at ha
          exact List.mem_cons_of_mem _ (h2 a ha)
      · intro a ha hmem
        rcases List.mem_cons.mp hmem with rfl | hU
        · exact h3.1 ha
        · exact h4 a (List.mem_cons_of_mem _ ha) hU
    | del lid =>
      simp only [addIds] at h3 h4
      refine ih (deleteTextLayer s lid) U
        (h1.sublist (deleteTextLayer_ids_sublist s lid))
        (fun a ha => h2 a ((deleteTextLayer_ids_sublist s lid).mem ha))
        h3 h4
    | up lid =>
      simp only [addIds] at h3 h4
      refine ih (moveLayerUp s lid) U
        (((moveLayerUp_ids_perm s lid).nodup_iff).mpr h1)
        (fun a ha => h2 a ((moveLayerUp_ids_perm s lid).mem_iff.mp ha))
        h3 h4
    | down lid =>
      simp only [addIds] at h3 h4
      refine ih (moveLayerDown s lid) U
        (((moveLayerDown_ids_perm s lid).nodup_iff).mpr h1)
        (fun a ha => h2 a ((moveLayerDown_ids_perm s lid).mem_iff.mp ha))
        h3 h4

/-- `addIds` distributes over concatenation. -/
lemma addIds_append : ∀ (xs ys : List LayerOp),
    addIds (xs ++ ys) = addIds xs ++ addIds ys := by
  intro xs ys
  induction xs with
  | nil => rfl
  | cons op rest ih =>
    cases op with
    | add now => simp [addIds, ih]
    | del lid => simp [addIds, ih]
    | up lid => simp [addIds, ih]
    | down lid => simp [addIds, ih]

/-- **C4** (amended): along every sequence of add/delete/reorder operations
whose add operations observe fresh clock readings (the minted timestamp ids
are pairwise distinct and distinct from every id already in the design), the
layer id sequence never — at any intermediate point — contains a duplicate.
Two adds in the same millisecond mint the same `Date.now().toString()` id and
break the invariant (`duplicate_ids_same_timestamp`). -/
theorem layer_ids_nodup (ops pre suf : List LayerOp) (s : EditorState)
    (hsplit : ops = pre ++ suf)
    (hnd : (s.textLayers.map (fun l => l.id)).Nodup)
    (hadd : (addIds ops).Nodup)
    (hfresh : ∀ a ∈ addIds ops, ∀ l ∈ s.textLayers, a ≠ l.id) :
    ((applyOps s pre).textLayers.map (fun l => l.id)).Nodup := by
  subst hsplit
  rw [addIds_append] at hadd hfresh
  refine applyOps_ids_nodup pre s (s.textLayers.map (fun l => l.id)) hnd
    (fun a ha => ha) ((List.nodup_append.mp hadd).1) ?_
  intro a ha hmem
  obtain ⟨l, hl, hid⟩ := List.mem_map.mp hmem
  exact hfresh a (List.mem_append_left _ ha) l hl hid.symm

/-- Witness for `layer_ids_nodup`: two adds at distinct timestamps then a
delete keep the ids distinct at the intermediate point. -/
theorem layer_ids_nodup_witness :
    ((applyOps initialEditorState
        [LayerOp.add 1, LayerOp.add 2]).textLayers.map (fun l => l.id)).Nodup := by
  have h := layer_ids_nodup
    [LayerOp.add 1, LayerOp.add 2, LayerOp.del "1"]
    [LayerOp.add 1, LayerOp.add 2] [LayerOp.del "1"]
    initialEditorState rfl (by decide) (by decide) (by decide)
  exact h

/-- **C4** (counterexample to the claim as stated): two `addTextLayer` calls
that observe the same `Date.now()` reading mint the same id, so the layer
sequence holds two layers with id "5" — ids are not unique for every
operation sequence. -/
theorem duplicate_ids_same_timestamp :
    (applyOps initialEditorState
        [LayerOp.add 5, LayerOp.add 5]).textLayers.map (fun l => l.id)
      = ["5", "5"] ∧
    ¬ ((applyOps initialEditorState
        [LayerOp.add 5, LayerOp.add 5]).textLayers.map (fun l => l.id)).Nodup := by
  decide

/-! ## Reorder boundary and z-order facts -/

/-- `findIdx` over a mapped list. -/
lemma findIdx_map (f : α → β) (p : β → Bool) :
    ∀ l : List α, (l.map f).findIdx p = l.findIdx (fun a => p (f a)) := by
  intro l
  induction l with
  | nil => rfl
  | cons a t ih =>
    simp only [List.map_cons, List.findIdx_cons, ih]

/-- In a duplicate-free list, the first index of the value at position `i`
is `i` itself. -/
lemma findIdx_eq_of_nodup_get? {β : Type} [DecidableEq β] :
    ∀ (l : List β) (i : ℕ) (v : β), l.Nodup → l.get? i = some v →
      l.findIdx (fun x => x == v) = i := by
  intro l
  induction l with
  | nil => intro i v _ hget; simp at hget
  | cons a t ih =>
    intro i v hnd hget
    rw [List.nodup_cons] at hnd
    cases i with
    | zero =>
      rw [List.get?_cons_zero, Option.some.injEq] at hget
      subst hget
      simp [List.findIdx_cons]
    | succ n =>
      rw [List.get?_cons_succ] at hget
      have hmem : v ∈ t := List.get?_mem hget
      have hne : a ≠ v := fun h => hnd.1 (h ▸ hmem)
      have hbeq : (a == v) = false := beq_eq_false_iff_ne.mpr hne
      rw [List.findIdx_cons, hbeq, cond_false, ih n v hnd.2 hget]

/-- `find?` returns the element at the found index. -/
lemma find?_eq_get?_findIdx (p : α → Bool) :
    ∀ l : List α, l.find? p = l.get? (l.findIdx p) := by
  intro l
  induction l with
  | nil => rfl
  | cons a t ih =>
    by_cases hp : p a
    · rw [List.find?_cons_of_pos _ hp, List.findIdx_cons, hp, cond_true,
        List.get?_cons_zero]
    · rw [List.find?_cons_of_neg _ hp, List.findIdx_cons,
        Bool.of_not_eq_true hp, cond_false, List.get?_cons_succ, ih]

/-- `swapAdj` keeps the length. -/
lemma swapAdj_length (l : List α) (i : ℕ) :
    (swapAdj l i).length = l.length :=
  (swapAdj_perm l i).length_eq

/-- After `swapAdj` at `i`, the old element at `i` sits at `i + 1`. -/
lemma swapAdj_get?_succ : ∀ (l : List α) (i : ℕ), i + 1 < l.length →
    (swapAdj l i).get? (i + 1) = l.get? i := by
  intro l
  induction l with
  | nil => intro i h; simp at h
  | cons a t ih =>
    intro i h
    cases i with
    | zero =>
      cases t with
      | nil => simp at h
      | cons b t2 => rfl
    | succ n =>
      rw [swapAdj_cons_succ, List.get?_cons_succ, List.get?_cons_succ]
      exact ih n (by simpa [Nat.succ_lt_succ_iff] using h)

/-- The element found by `findIdx` satisfies the predicate. -/
lemma pred_of_findIdx_get? (l : List α) (p : α → Bool) (i : ℕ) (x : α)
    (hfind : l.findIdx p = i) (hget : l.get? i = some x) : p x = true := by
  subst hfind
  obtain ⟨hw, heq⟩ := List.get?_eq_some.mp hget
  rw [← heq]
  exact List.findIdx_get

/-- **C6**: with distinct ids, reorder-up on the topmost layer and
reorder-down on the bottommost layer are complete no-ops: the whole editor
state — layers, canvas order, selection and history — is returned
unchanged. -/
theorem reorder_boundary_noops (s : EditorState) (top bot : TextLayer) :
    ((s.textLayers.map (fun l => l.id)).Nodup →
      s.textLayers.getLast? = some top → moveLayerUp s top.id = s) ∧
    (s.textLayers.head? = some bot → moveLayerDown s bot.id = s) := by
  constructor
  · intro hnd hlast
    rw [List.getLast?_eq_get?] at hlast
    have hids : (s.textLayers.map (fun l => l.id)).get?
        (s.textLayers.length - 1) = some top.id := by
      rw [List.get?_map, hlast]; rfl
    have hfind : s.textLayers.findIdx (fun l => l.id == top.id)
        = s.textLayers.length - 1 := by
      have h1 := findIdx_eq_of_nodup_get? (s.textLayers.map (fun l => l.id))
        (s.textLayers.length - 1) top.id hnd hids
      rwa [findIdx_map (fun l : TextLayer => l.id) (fun x => x == top.id)] at h1
    simp only [moveLayerUp]
    rw [hfind, hlast]
    simp
  · intro hhead
    cases hl : s.textLayers with
    | nil => rw [hl] at hhead; exact absurd hhead (by simp)
    | cons a t =>
      rw [hl] at hhead
      rw [List.head?_cons, Option.some.injEq] at hhead
      subst hhead
      simp only [moveLayerDown, hl]
      simp [List.findIdx_cons]

/-- Layers "1" < "2" < "3" in z-order, bound to canvas objects 0, 1, 2. -/
def layerA : TextLayer :=
  { sampleLayer with id := "1", fabricObject := some 0 }

/-- Middle layer of the three-layer design. -/
def layerB : TextLayer :=
  { sampleLayer with id := "2", x := 30, fabricObject := some 1 }

/-- Topmost layer of the three-layer design. -/
def layerC : TextLayer :=
  { sampleLayer with id := "3", x := 60, fabricObject := some 2 }

/-- A three-layer design whose canvas stacking order matches the array. -/
def threeLayerEditor : EditorState :=
  { initialEditorState with
    textLayers := [layerA, layerB, layerC]
    canvasObjects := [⟨0, "1"⟩, ⟨1, "2"⟩, ⟨2, "3"⟩]
    fabricHeap := [(0, fabricPropsOf layerA), (1, fabricPropsOf layerB),
      (2, fabricPropsOf layerC)] }

/-- Witness for `reorder_boundary_noops` on the three-layer design. -/
theorem reorder_boundary_noops_witness :
    moveLayerUp threeLayerEditor "3" = threeLayerEditor ∧
    moveLayerDown threeLayerEditor "1" = threeLayerEditor := by
  have h := reorder_boundary_noops threeLayerEditor layerC layerA
  exact ⟨h.1 (by decide) (by decide), h.2 (by decide)⟩

/-- A well-formed canvas binding: a canvas exists, layer ids are distinct, the
canvas stacking order carries exactly the layer ids in array order, object
references are distinct, and every stored layer back-reference points to the
canvas object at the layer's own position. -/
def CanvasBound (s : EditorState) : Prop :=
  s.canvas = true ∧
  (s.textLayers.map (fun l => l.id)).Nodup ∧
  s.canvasObjects.map (fun o => o.layerId)
      = s.textLayers.map (fun l => l.id) ∧
  (s.canvasObjects.map (fun o => o.ref)).Nodup ∧
  ∀ j, ∀ _ : j < s.textLayers.length,
    (s.textLayers.get? j).bind (fun l => l.fabricObject) = none ∨
    (s.textLayers.get? j).bind (fun l => l.fabricObject)
      = (s.canvasObjects.get? j).map (fun o => o.ref)

/-- The reorder-up mutation path at the array level: when the id is found at a
non-topmost index `i` and a canvas exists, the id sequence becomes the
adjacent swap at `i` (whether or not the live object was resolved), and the
canvas flag and layer count are unchanged. -/
lemma moveLayerUp_ids_eq (s : EditorState) (lid : String) (i : ℕ)
    (hfind : s.textLayers.findIdx (fun l => l.id == lid) = i)
    (hlt : i + 1 < s.textLayers.length)
    (hcanvas : s.canvas = true) :
    (moveLayerUp s lid).textLayers.map (fun l => l.id)
        = swapAdj (s.textLayers.map (fun l => l.id)) i ∧
    (moveLayerUp s lid).canvas = true ∧
    (moveLayerUp s lid).textLayers.length = s.textLayers.length := by
  simp only [moveLayerUp]
  rw [hfind]
  split
  · rename_i hnone
    exact absurd (List.get?_eq_none.mp hnone) (by omega)
  · rename_i layer hget
    rw [if_neg (show ¬ i = s.textLayers.length - 1 by omega),
      if_neg (not_not_intro hcanvas)]
    have hswap := eraseIdx_insertIdx_succ s.textLayers i layer hget hlt
    split
    · rename_i r hres
      split
      · refine ⟨?_, hcanvas, ?_⟩
        · show ((s.textLayers.eraseIdx i).insertIdx (i + 1) layer).map
              (fun l => l.id) = _
          rw [hswap, map_swapAdj]
        · show ((s.textLayers.eraseIdx i).insertIdx (i + 1) layer).length
              = _
          rw [hswap, swapAdj_length]
      · refine ⟨?_, hcanvas, ?_⟩
        · show (((s.textLayers.eraseIdx i).insertIdx (i + 1) layer).map
              (fun l => if l.id = lid then { l with fabricObject := some r }
                else l)).map (fun l => l.id) = _
          rw [ids_map_update, hswap, map_swapAdj]
        · show (((s.textLayers.eraseIdx i).insertIdx (i + 1) layer).map
              (fun l => if l.id = lid then { l with fabricObject := some r }
                else l)).length = _
          rw [List.length_map, hswap, swapAdj_length]
    · refine ⟨?_, hcanvas, ?_⟩
      · show ((s.textLayers.eraseIdx i).insertIdx (i + 1) layer).map
            (fun l => l.id) = _
        rw [hswap, map_swapAdj]
      · show ((s.textLayers.eraseIdx i).insertIdx (i + 1) layer).length = _
        rw [hswap, swapAdj_length]

/-- The reorder-up mutation path at the canvas level: when the live object is
resolved to `r`, the canvas order gets exactly `bringObjectForward`. -/
lemma moveLayerUp_canvasObjects_eq (s : EditorState) (lid : String) (i : ℕ)
    (layer : TextLayer) (r : ℕ)
    (hfind : s.textLayers.findIdx (fun l => l.id == lid) = i)
    (hget : s.textLayers.get? i = some layer)
    (hlt : i + 1 < s.textLayers.length)
    (hcanvas : s.canvas = true)
    (hres : resolveFabric s layer lid = some r) :
    (moveLayerUp s lid).canvasObjects
      = bringObjectForward s.canvasObjects r := by
  simp only [moveLayerUp]
  rw [hfind]
  split
  · rename_i hnone
    exact absurd (List.get?_eq_none.mp hnone) (by omega)
  · rename_i layer' hget'
    obtain rfl : layer = layer' := Option.some.inj (hget.symm.trans hget')
    rw [if_neg (show ¬ i = s.textLayers.length - 1 by omega),
      if_neg (not_not_intro hcanvas)]
    split
    · rename_i r' hres'
      obtain rfl : r = r' := Option.some.inj (hres.symm.trans hres')
      split
      · rfl
      · rfl
    · rename_i hres'
      exact Option.noConfusion (hres.symm.trans hres')

/-- The reorder-down mutation path at the array level: when the id is found at
a non-bottom index `i` and a canvas exists, the id sequence becomes the
adjacent swap at `i − 1`. -/
lemma moveLayerDown_ids_eq (s : EditorState) (lid : String) (i : ℕ)
    (hfind : s.textLayers.findIdx (fun l => l.id == lid) = i)
    (h0 : 0 < i) (hlen : i < s.textLayers.length)
    (hcanvas : s.canvas = true) :
    (moveLayerDown s lid).textLayers.map (fun l => l.id)
        = swapAdj (s.textLayers.map (fun l => l.id)) (i - 1) := by
  simp only [moveLayerDown]
  rw [hfind]
  split
  · rename_i hnone
    exact absurd (List.get?_eq_none.mp hnone) (by omega)
  · rename_i layer hget
    rw [if_neg (show ¬ i = 0 by omega), if_neg (not_not_intro hcanvas)]
    have hswap := eraseIdx_insertIdx_pred s.textLayers i layer hget h0
    split
    · rename_i r hres
      split
      · show ((s.textLayers.eraseIdx i).insertIdx (i - 1) layer).map
            (fun l => l.id) = _
        rw [hswap, map_swapAdj]
      · show (((s.textLayers.eraseIdx i).insertIdx (i - 1) layer).map
            (fun l => if l.id = lid then { l with fabricObject := some r }
              else l)).map (fun l => l.id) = _
        rw [ids_map_update, hswap, map_swapAdj]
    · show ((s.textLayers.eraseIdx i).insertIdx (i - 1) layer).map
          (fun l => l.id) = _
      rw [hswap, map_swapAdj]

/-- `bringObjectForward` on the object at a non-top index `i` (with distinct
references) is the adjacent swap at `i`. -/
lemma bringObjectForward_at (objs : List CanvasObj) (i : ℕ) (r : ℕ)
    (hnd : (objs.map (fun o => o.ref)).Nodup)
    (hget : (objs.map (fun o => o.ref)).get? i = some r)
    (hlt : i + 1 < objs.length) :
    bringObjectForward objs r = swapAdj objs i := by
  have h1 := findIdx_eq_of_nodup_get? (objs.map (fun o => o.ref)) i r hnd hget
  rw [findIdx_map (fun o : CanvasObj => o.ref) (fun x => x == r)] at h1
  simp only [bringObjectForward]
  rw [h1, if_pos hlt]

/-- **C7**: in a well-formed bound state, reorder-up on a layer at a
non-topmost index `i` moves that id to index `i + 1`, the live canvas stacking
order matches the array order exactly afterwards, and an immediate
reorder-down on the same id restores the original array order. -/
theorem reorder_up_index_and_inverse (s : EditorState) (lid : String) (i : ℕ)
    (hwf : CanvasBound s)
    (hfind : s.textLayers.findIdx (fun l => l.id == lid) = i)
    (hlt : i + 1 < s.textLayers.length) :
    (moveLayerUp s lid).textLayers.findIdx (fun l => l.id == lid) = i + 1 ∧
    (moveLayerUp s lid).canvasObjects.map (fun o => o.layerId)
        = (moveLayerUp s lid).textLayers.map (fun l => l.id) ∧
    (moveLayerDown (moveLayerUp s lid) lid).textLayers.map (fun l => l.id)
        = s.textLayers.map (fun l => l.id) := by
  obtain ⟨hcanvas, hnd, hmaps, hrefnd, hbind⟩ := hwf
  have hup := moveLayerUp_ids_eq s lid i hfind hlt hcanvas
  have hlen_objs : s.canvasObjects.length = s.textLayers.length := by
    have := congrArg List.length hmaps
    simpa using this
  cases hget : s.textLayers.get? i with
  | none => exact absurd (List.get?_eq_none.mp hget) (by omega)
  | some layer =>
  cases hobj : s.canvasObjects.get? i with
  | none => exact absurd (List.get?_eq_none.mp hobj) (by omega)
  | some obj =>
  have hlid : layer.id = lid := by
    have := pred_of_findIdx_get? s.textLayers (fun l => l.id == lid) i layer
      hfind hget
    exact beq_iff_eq.mp this
  have hres : resolveFabric s layer lid = some obj.ref := by
    cases hfo : layer.fabricObject with
    | some r0 =>
      have hb := hbind i (by omega)
      rw [hget, hobj] at hb
      simp only [Option.some_bind, hfo, Option.map_some'] at hb
      rcases hb with hb | hb
      · exact absurd hb (by simp)
      · simp only [resolveFabric, hfo]
        rw [Option.some.inj hb]
    | none =>
      simp only [resolveFabric, hfo]
      have hids_find : (s.textLayers.map (fun l => l.id)).findIdx
          (fun x => x == lid) = i := by
        rw [findIdx_map (fun l : TextLayer => l.id) (fun x => x == lid)]
        exact hfind
      have hfindobjs : s.canvasObjects.findIdx (fun o => o.layerId == lid)
          = i := by
        have h2 : (s.canvasObjects.map (fun o => o.layerId)).findIdx
            (fun x => x == lid) = i := by rw [hmaps]; exact hids_find
        rwa [findIdx_map (fun o : CanvasObj => o.layerId)
          (fun x => x == lid)] at h2
      rw [find?_eq_get?_findIdx, hfindobjs, hobj]
      rfl
  have hids_i : (s.textLayers.map (fun l => l.id)).get? i = some lid := by
    rw [List.get?_map, hget]
    simp [hlid]
  have hnewnd : (swapAdj (s.textLayers.map (fun l => l.id)) i).Nodup :=
    ((swapAdj_perm _ i).nodup_iff).mpr hnd
  have hget_new : (swapAdj (s.textLayers.map (fun l => l.id)) i).get? (i + 1)
      = some lid := by
    rw [swapAdj_get?_succ _ i (by simpa using hlt)]
    exact hids_i
  have ha : (moveLayerUp s lid).textLayers.findIdx (fun l => l.id == lid)
      = i + 1 := by
    have h1 : ((moveLayerUp s lid).textLayers.map (fun l => l.id)).findIdx
        (fun x => x == lid) = i + 1 := by
      rw [hup.1]
      exact findIdx_eq_of_nodup_get? _ (i + 1) lid hnewnd hget_new
    rwa [findIdx_map (fun l : TextLayer => l.id) (fun x => x == lid)] at h1
  have hbring : bringObjectForward s.canvasObjects obj.ref
      = swapAdj s.canvasObjects i := by
    refine bringObjectForward_at s.canvasObjects i obj.ref hrefnd ?_ (by omega)
    rw [List.get?_map, hobj]
    rfl
  have hb : (moveLayerUp s lid).canvasObjects.map (fun o => o.layerId)
      = (moveLayerUp s lid).textLayers.map (fun l => l.id) := by
    rw [moveLayerUp_canvasObjects_eq s lid i layer obj.ref hfind hget hlt
      hcanvas hres, hbring, map_swapAdj, hmaps, hup.1]
  have hc : (moveLayerDown (moveLayerUp s lid) lid).textLayers.map
      (fun l => l.id) = s.textLayers.map (fun l => l.id) := by
    have hdown := moveLayerDown_ids_eq (moveLayerUp s lid) lid (i + 1) ha
      (by omega) (by rw [hup.2.2]; omega) hup.2.1
    rw [hdown, hup.1]
    simpa using swapAdj_swapAdj (s.textLayers.map (fun l => l.id)) i
  exact ⟨ha, hb, hc⟩

/-- Witness for `reorder_up_index_and_inverse`: moving the middle layer "2"
(index 1) up in the three-layer design. -/
theorem reorder_up_index_and_inverse_witness :
    (moveLayerUp threeLayerEditor "2").textLayers.findIdx
        (fun l => l.id == "2") = 2 ∧
    (moveLayerUp threeLayerEditor "2").canvasObjects.map (fun o => o.layerId)
        = (moveLayerUp threeLayerEditor "2").textLayers.map (fun l => l.id) ∧
    (moveLayerDown (moveLayerUp threeLayerEditor "2") "2").textLayers.map
        (fun l => l.id) = ["1", "2", "3"] := by
  have h := reorder_up_index_and_inverse threeLayerEditor "2" 1
    (by refine ⟨rfl, by decide, by decide, by decide, ?_⟩; decide)
    (by decide) (by decide)
  exact ⟨h.1, h.2.1, h.2.2⟩

end ImageEditor
